import Mathlib

/-!
Shallow embedding of the core benchmark runner of src/src/benchmark.cc:
the per-trial controller that normalizes the merged thread results, decides
whether a trial is reported, grows the iteration count on a retry, optionally
runs the memory probe, and builds the Run record; the repetition driver; the
reporter dispatch; and the error/iteration-count machinery of State.

Modelling conventions: C++ doubles are exact rationals; size_t is a natural
number, reduced modulo 2^64 exactly where the code relies on wrap-around;
the raw measurement of a trial (the merged ThreadManager::Result of the
worker threads) and the memory-probe output are inputs supplied by an
oracle, since they come from wall clocks outside the model; the external
pure collaborators (counter finalization, summary statistics, big-O fit)
are function parameters.
-/

namespace Benchmark

/-- Hard iteration cap `kMaxIterations`, src/src/benchmark.cc line 117. -/
def kMaxIterations : Nat := 1000000000

/-- Time unit enumeration (declared outside src; values per spec section 6). -/
inductive TimeUnit
| kNanosecond
| kMicrosecond
| kMillisecond
| kSecond
deriving DecidableEq

/-- Complexity descriptor (declared outside src; values per spec section 6). -/
inductive BigO
| oNone
| o1
| oLogN
| oN
| oNLogN
| oNSquared
| oNCubed
| oAuto
| oLambda
deriving DecidableEq

/-- Aggregation-report mode of an Instance. benchmark.cc reads whether the
mode is `ARM_Unspecified` (line 231) and, when set, its display-only and
file-only bits (lines 233-236); modelled as that three-way information. -/
inductive AggregationReportMode
| ARM_Unspecified
| ARM_Set (display_only file_only : Bool)
deriving DecidableEq

/-- The display-only bit of an aggregation-report mode (false when unspecified). -/
def AggregationReportMode.displayBit : AggregationReportMode → Bool
| .ARM_Unspecified => false
| .ARM_Set d _ => d

/-- The file-only bit of an aggregation-report mode (false when unspecified). -/
def AggregationReportMode.fileBit : AggregationReportMode → Bool
| .ARM_Unspecified => false
| .ARM_Set _ f => f

/-- User counters: a finite name-to-value map, modelled as an association list. -/
abbrev Counters := List (String × ℚ)

/-- The fields of Benchmark::Instance that benchmark.cc reads (the struct is
declared in a header outside src; field list per spec section 6). -/
structure Instance where
  name : String := ""
  arg : List Int := []
  iterations : Nat := 0
  repetitions : Int := 0
  min_time : ℚ := 0
  use_real_time : Bool := false
  use_manual_time : Bool := false
  threads : Nat := 1
  time_unit : TimeUnit := .kNanosecond
  complexity : BigO := .oNone
  complexity_lambda : Int → ℚ := fun _ => 0
  statistics : List String := []
  aggregation_report_mode : AggregationReportMode := .ARM_Unspecified
  last_benchmark_instance : Bool := false

/-- ThreadManager::Result (struct declared in thread_manager.h, outside src):
the fields merged by the workers in RunInThread, benchmark.cc lines 193-201,
and consumed at lines 133-176 and 252-288. All fields zero-initialized. -/
structure ThreadManagerResult where
  iterations : Nat := 0
  cpu_time_used : ℚ := 0
  real_time_used : ℚ := 0
  manual_time_used : ℚ := 0
  bytes_processed : Int := 0
  items_processed : Int := 0
  complexity_n : Int := 0
  counters : Counters := []
  report_label_ : String := ""
  error_message_ : String := ""
  has_error_ : Bool := false
deriving DecidableEq

/-- MemoryManager::Result: what the memory probe's Stop writes, benchmark.cc line 304. -/
structure MemoryManagerResult where
  num_allocs : Int := 0
  max_bytes_used : Int := 0
deriving DecidableEq

/-- BenchmarkReporter::Run (struct declared in the reporter header, outside
src); every field not listed by CreateRunReport stays at the zero/false/empty
default of the declaration (spec section 3 notes the 0-when-not-reported
convention). -/
structure Run where
  benchmark_name : String := ""
  error_occurred : Bool := false
  error_message : String := ""
  report_label : String := ""
  iterations : Nat := 0
  time_unit : TimeUnit := .kNanosecond
  real_accumulated_time : ℚ := 0
  cpu_accumulated_time : ℚ := 0
  bytes_per_second : ℚ := 0
  items_per_second : ℚ := 0
  complexity : BigO := .oNone
  complexity_n : Int := 0
  complexity_lambda : Int → ℚ := fun _ => 0
  statistics : List String := []
  counters : Counters := []
  has_memory_result : Bool := false
  allocs_per_iter : ℚ := 0
  max_bytes_used : Int := 0

/-- The command-line flag values that the core reads (DEFINE_ lines 63-88). -/
structure Flags where
  benchmark_min_time : ℚ := 1 / 2
  benchmark_repetitions : Int := 1
  benchmark_report_aggregates_only : Bool := false
  benchmark_display_aggregates_only : Bool := false

/-- The external pure collaborators: internal::Finish on counters (line 176),
ComputeStats (line 336) and ComputeBigO (line 340); all defined outside src. -/
structure Collaborators where
  Finish : Counters → Nat → ℚ → Nat → Counters
  ComputeStats : List Run → List Run
  ComputeBigO : List Run → List Run

/-- IsZero, benchmark.cc lines 540-542: magnitude strictly below
std::numeric_limits of double epsilon, which is 2^-52. -/
def IsZero (n : ℚ) : Bool := decide (|n| < 1 / 2 ^ 52)

/-- CreateRunReport, benchmark.cc lines 128-179. -/
def CreateRunReport (C : Collaborators) (b : Instance) (results : ThreadManagerResult)
    (memory_iterations : Nat) (memory_result : MemoryManagerResult) (seconds : ℚ) : Run :=
  let report : Run :=
    { benchmark_name := b.name
      error_occurred := results.has_error_
      error_message := results.error_message_
      report_label := results.report_label_
      iterations := results.iterations
      time_unit := b.time_unit }
  if !report.error_occurred then
    let bytes_per_second : ℚ :=
      if 0 < results.bytes_processed ∧ 0 < seconds then
        (results.bytes_processed : ℚ) / seconds
      else 0
    let items_per_second : ℚ :=
      if 0 < results.items_processed ∧ 0 < seconds then
        (results.items_processed : ℚ) / seconds
      else 0
    let report :=
      { report with
        real_accumulated_time :=
          if b.use_manual_time then results.manual_time_used else results.real_time_used
        cpu_accumulated_time := results.cpu_time_used
        bytes_per_second := bytes_per_second
        items_per_second := items_per_second
        complexity_n := results.complexity_n
        complexity := b.complexity
        complexity_lambda := b.complexity_lambda
        statistics := b.statistics
        counters := results.counters }
    let report :=
      if 0 < memory_iterations then
        { report with
          has_memory_result := true
          allocs_per_iter := (memory_result.num_allocs : ℚ) / (memory_iterations : ℚ)
          max_bytes_used := memory_result.max_bytes_used }
      else report
    { report with counters := C.Finish report.counters results.iterations seconds b.threads }
  else report

/-- Normalization of the copied Result, benchmark.cc lines 258-260: real and
manual time were summed per thread and are divided by the thread count. -/
def adjust_results (b : Instance) (results : ThreadManagerResult) : ThreadManagerResult :=
  { results with
    real_time_used := results.real_time_used / (b.threads : ℚ)
    manual_time_used := results.manual_time_used / (b.threads : ℚ) }

/-- Time-basis selection, benchmark.cc lines 265-271: seconds starts as CPU
time and is overwritten by manual or real time when the instance asks for it. -/
def trial_seconds (b : Instance) (results : ThreadManagerResult) : ℚ :=
  let seconds := results.cpu_time_used
  if b.use_manual_time then results.manual_time_used
  else if b.use_real_time then results.real_time_used
  else seconds

/-- min_time resolution, benchmark.cc lines 273-274. -/
def resolved_min_time (b : Instance) (flags : Flags) : ℚ :=
  if !IsZero b.min_time then b.min_time else flags.benchmark_min_time

/-- The should_report disjunction, benchmark.cc lines 280-288. -/
def should_report (repetition_num : Nat) (has_explicit_iteration_count : Bool)
    (results : ThreadManagerResult) (iters : Nat) (seconds min_time : ℚ)
    (use_manual_time : Bool) : Bool :=
  decide (0 < repetition_num)
    || has_explicit_iteration_count
    || results.has_error_
    || decide (kMaxIterations ≤ iters)
    || decide (min_time ≤ seconds)
    || (decide (5 * min_time ≤ results.real_time_used) && !use_manual_time)

/-- Next iteration count on a retry, benchmark.cc lines 315-331: the growth
multiplier, the 10x cap for an insignificant last trial, the always-grow
floor of 2.0, the +1 lower bound, the hard clamp at kMaxIterations, and the
final static_cast of next_iters + 0.5 (floor, since the value is positive). -/
def next_iters_of (min_time seconds : ℚ) (iters : Nat) : Nat :=
  let multiplier : ℚ := min_time * (14 / 10) / max seconds (1 / 1000000000)
  let multiplier := if 1 / 10 < seconds / min_time then multiplier else min 10 multiplier
  let multiplier := if multiplier ≤ 1 then 2 else multiplier
  let next_iters : ℚ := max (multiplier * (iters : ℚ)) ((iters : ℚ) + 1)
  let next_iters := if (kMaxIterations : ℚ) < next_iters then (kMaxIterations : ℚ) else next_iters
  (⌊next_iters + 1 / 2⌋).toNat

/-- Outcome of one pass of the retry loop, benchmark.cc lines 240-332: either
a report (the loop exits via the break at line 312; the outcome also records
whether the memory probe ran and with how many iterations) or the next
iteration count (line 331). -/
inductive TrialOutcome
| reportTrial (report : Run) (memory_probe_ran : Bool) (memory_iterations : Nat)
| retry (next : Nat)

/-- Whether a trial outcome is a report (the loop exits, no further retry). -/
def TrialOutcome.isReport : TrialOutcome → Bool
| .reportTrial _ _ _ => true
| .retry _ => false

/-- Whether the memory probe ran on this outcome. -/
def TrialOutcome.probeRan : TrialOutcome → Bool
| .reportTrial _ p _ => p
| .retry _ => false

/-- The memory_iterations value of this outcome (0 on a retry). -/
def TrialOutcome.memIters : TrialOutcome → Nat
| .reportTrial _ _ m => m
| .retry _ => 0

/-- The Run record of this outcome (the default record on a retry). -/
def TrialOutcome.reportRun : TrialOutcome → Run
| .reportTrial r _ _ => r
| .retry _ => {}

/-- One pass of the retry loop after the workers merged their raw Result:
benchmark.cc lines 252-331. The raw merged measurement and the memory-probe
output are inputs (they come from the timed run, outside the model); the
memory block at lines 292-305 runs exactly under memory_manager != nullptr,
with memory_iterations = min(16, iters), line 297. -/
def RunBenchmarkTrial (C : Collaborators) (b : Instance) (flags : Flags)
    (memory_manager_registered : Bool) (memory_result : MemoryManagerResult)
    (repetition_num iters : Nat) (raw : ThreadManagerResult) : TrialOutcome :=
  let results := adjust_results b raw
  let seconds := trial_seconds b results
  let min_time := resolved_min_time b flags
  if should_report repetition_num (decide (b.iterations ≠ 0)) results iters seconds
      min_time b.use_manual_time then
    let memory_iterations := if memory_manager_registered then min 16 iters else 0
    .reportTrial (CreateRunReport C b results memory_iterations memory_result seconds)
      memory_manager_registered memory_iterations
  else
    .retry (next_iters_of min_time seconds iters)

/-- repeats resolution, benchmark.cc lines 223-224. -/
def resolved_repeats (b : Instance) (flags : Flags) : Int :=
  if b.repetitions ≠ 0 then b.repetitions else flags.benchmark_repetitions

/-- The two aggregates-only reporting booleans, benchmark.cc lines 225-238:
default false; when repeats != 1 they are resolved from the global flags and
then overridden by the instance mode when it is specified. -/
def resolved_aggregates_flags (b : Instance) (flags : Flags) : Bool × Bool :=
  if resolved_repeats b flags ≠ 1 then
    match b.aggregation_report_mode with
    | .ARM_Unspecified =>
      (flags.benchmark_report_aggregates_only || flags.benchmark_display_aggregates_only,
       flags.benchmark_report_aggregates_only)
    | .ARM_Set d f => (d, f)
  else (false, false)

/-- The inner retry loop of one repetition, benchmark.cc lines 240-332,
driven by oracles indexed by a running trial counter; fuel bounds the number
of trials. Returns the report, the iteration count of the reporting trial
(iters is declared outside the repetition loop at line 220 and persists),
and the next trial index. -/
def RetryLoop (C : Collaborators) (b : Instance) (flags : Flags) (reg : Bool)
    (oracle : Nat → ThreadManagerResult) (memOracle : Nat → MemoryManagerResult)
    (repetition_num : Nat) : Nat → Nat → Nat → Option (Run × Nat × Nat)
| 0, _, _ => none
| fuel + 1, iters, tIdx =>
  match RunBenchmarkTrial C b flags reg (memOracle tIdx) repetition_num iters (oracle tIdx) with
  | .reportTrial r _ _ => some (r, iters, tIdx + 1)
  | .retry n => RetryLoop C b flags reg oracle memOracle repetition_num fuel n (tIdx + 1)

/-- The repetition loop, benchmark.cc line 239, with the complexity push at
lines 309-310 and the collection into non_aggregates at line 311. -/
def RepetitionLoop (C : Collaborators) (b : Instance) (flags : Flags) (reg : Bool)
    (oracle : Nat → ThreadManagerResult) (memOracle : Nat → MemoryManagerResult) :
    Nat → Nat → Nat → Nat → Nat → List Run → List Run → Option (List Run × List Run)
| 0, _, _, _, _, non_aggregates, complexity_reports => some (non_aggregates, complexity_reports)
| remaining + 1, repetition_num, iters, tIdx, fuel, non_aggregates, complexity_reports =>
  match RetryLoop C b flags reg oracle memOracle repetition_num fuel iters tIdx with
  | none => none
  | some (report, iters2, tIdx2) =>
    let complexity_reports :=
      if report.error_occurred = false ∧ b.complexity ≠ .oNone then
        complexity_reports ++ [report]
      else complexity_reports
    RepetitionLoop C b flags reg oracle memOracle remaining (repetition_num + 1) iters2 tIdx2
      fuel (non_aggregates ++ [report]) complexity_reports

/-- RunResults, benchmark.cc lines 206-212. -/
structure RunResults where
  non_aggregates : List Run := []
  aggregates_only : List Run := []
  display_report_aggregates_only : Bool := false
  file_report_aggregates_only : Bool := false

/-- RunBenchmark, benchmark.cc lines 214-348, over the measurement oracles:
initial iters (line 220), repeats and the aggregates-only booleans (lines
223-238), the repetition loop, ComputeStats (line 336) and the end-of-family
big-O block (lines 339-345). Returns the RunResults together with the final
state of the family-wide complexity_reports vector. -/
def RunBenchmark (C : Collaborators) (b : Instance) (flags : Flags) (reg : Bool)
    (oracle : Nat → ThreadManagerResult) (memOracle : Nat → MemoryManagerResult)
    (fuel : Nat) (complexity_reports : List Run) : Option (RunResults × List Run) :=
  let iters := if b.iterations ≠ 0 then b.iterations else 1
  let resolved := resolved_aggregates_flags b flags
  match RepetitionLoop C b flags reg oracle memOracle (resolved_repeats b flags).toNat 0 iters 0
      fuel [] complexity_reports with
  | none => none
  | some (non_aggregates, cr) =>
    let aggregates_only := C.ComputeStats non_aggregates
    if b.complexity ≠ .oNone ∧ b.last_benchmark_instance then
      some ({ non_aggregates := non_aggregates
              aggregates_only := aggregates_only ++ C.ComputeBigO cr
              display_report_aggregates_only := resolved.1
              file_report_aggregates_only := resolved.2 }, [])
    else
      some ({ non_aggregates := non_aggregates
              aggregates_only := aggregates_only
              display_report_aggregates_only := resolved.1
              file_report_aggregates_only := resolved.2 }, cr)

/-- The per-reporter emission rule, the report lambda of RunBenchmarks,
benchmark.cc lines 498-507: the non-aggregate list unless the
aggregates-only boolean is set, then the aggregates list when non-empty. -/
def report_emissions (rr : RunResults) (report_aggregates_only : Bool) : List (List Run) :=
  (if !report_aggregates_only then [rr.non_aggregates] else []) ++
  (if !rr.aggregates_only.isEmpty then [rr.aggregates_only] else [])

/-- The reporter dispatch of RunBenchmarks, benchmark.cc lines 509-511: the
display reporter always receives its emissions, the file reporter only when
present. -/
def RunBenchmarks_dispatch (rr : RunResults) (file_reporter_present : Bool) :
    List (List Run) × List (List Run) :=
  (report_emissions rr rr.display_report_aggregates_only,
   if file_reporter_present then report_emissions rr rr.file_report_aggregates_only else [])

/-- The mutex-protected compare-and-set of SkipWithError on the shared
Result, benchmark.cc lines 414-419: the message and the sticky error bit are
written only when has_error_ is still false. -/
def resultSkipWithError (r : ThreadManagerResult) (msg : String) : ThreadManagerResult :=
  if r.has_error_ = false then { r with error_message_ := msg, has_error_ := true } else r

/-- The SetLabel write on the shared Result, benchmark.cc lines 428-431
(last writer wins). -/
def resultSetLabel (r : ThreadManagerResult) (label : String) : ThreadManagerResult :=
  { r with report_label_ := label }

/-- One serialized write to the shared Result within a trial: the operations
of workers that touch the error and label slots, in mutex-acquisition order. -/
inductive ResultOp
| skipErr (msg : String)
| setLabel (label : String)
deriving DecidableEq

/-- Apply one shared-Result write. -/
def applyResultOp (r : ThreadManagerResult) : ResultOp → ThreadManagerResult
| .skipErr m => resultSkipWithError r m
| .setLabel l => resultSetLabel r l

/-- Apply a mutex-serialized sequence of shared-Result writes. -/
def applyResultOps (r : ThreadManagerResult) (ops : List ResultOp) : ThreadManagerResult :=
  ops.foldl applyResultOp r

/-- The message of the first skip_with_error call in a sequence of writes. -/
def firstSkipMessage : List ResultOp → Option String
| [] => none
| .skipErr m :: _ => some m
| .setLabel _ :: rest => firstSkipMessage rest

/-- 2^64, the modulus of size_t arithmetic. -/
def sizeTMod : Nat := 2 ^ 64

/-- The per-worker State fields that drive the iteration loop, benchmark.cc
lines 353-370 (construction) and 433-450; timer_running abstracts the
ThreadTimer running flag that SkipWithError checks at line 421. -/
structure State where
  total_iterations_ : Nat
  batch_leftover_ : Nat
  max_iterations : Nat
  started_ : Bool
  finished_ : Bool
  error_occurred_ : Bool
  timer_running : Bool
deriving DecidableEq

/-- A freshly constructed State, benchmark.cc lines 353-370. -/
def State.fresh (max_iters : Nat) : State :=
  { total_iterations_ := 0
    batch_leftover_ := 0
    max_iterations := max_iters
    started_ := false
    finished_ := false
    error_occurred_ := false
    timer_running := false }

/-- StartKeepRunning, benchmark.cc lines 433-439: mark started, set the
remaining count to max_iterations (0 when an error already occurred), and
start the timer unless an error occurred. -/
def StartKeepRunning (s : State) : State :=
  let s := { s with
    started_ := true
    total_iterations_ := if s.error_occurred_ then 0 else s.max_iterations }
  if !s.error_occurred_ then { s with timer_running := true } else s

/-- FinishKeepRunning, benchmark.cc lines 441-450: stop the timer unless an
error occurred, reset the wrapped-around remaining count to 0, mark finished. -/
def FinishKeepRunning (s : State) : State :=
  let s := if !s.error_occurred_ then { s with timer_running := false } else s
  { s with total_iterations_ := 0, finished_ := true }

/-- State::SkipWithError, benchmark.cc lines 410-422: set the local error
flag, do the compare-and-set on the shared Result under the mutex, truncate
the remaining count to 0, and stop the timer if it is running. -/
def SkipWithError (s : State) (r : ThreadManagerResult) (msg : String) :
    State × ThreadManagerResult :=
  let s := { s with error_occurred_ := true }
  let r := resultSkipWithError r msg
  let s := { s with total_iterations_ := 0 }
  let s := if s.timer_running then { s with timer_running := false } else s
  (s, r)

/-- Modelled from the spec: State::KeepRunning is declared in benchmark.h,
which is outside src. Per spec section 4.3 the first call invokes
start_keep_running; each call consumes one remaining iteration through a
size_t post-decrement whose truth value is the return (the comment at
benchmark.cc line 446 records that the count wraps past 0 on the final
call); when the count was already exhausted it invokes finish_keep_running
and returns false. -/
def KeepRunning (s : State) : Bool × State :=
  let s := if !s.started_ then StartKeepRunning s else s
  let res : Bool := decide (s.total_iterations_ ≠ 0)
  let s := { s with total_iterations_ := (s.total_iterations_ + (sizeTMod - 1)) % sizeTMod }
  if res then (true, s) else (false, FinishKeepRunning s)

/-- Modelled from the spec: State::iterations is declared in benchmark.h,
outside src. Per spec sections 3 and 4.3 it returns how many iterations have
been consumed: max_iterations minus the remaining count, plus the batch
leftover, in size_t arithmetic; 0 before the loop starts. -/
def State.iterations (s : State) : Nat :=
  if s.started_ then
    (s.max_iterations + (sizeTMod - s.total_iterations_) + s.batch_leftover_) % sizeTMod
  else 0

/-- A benchmark body that drives the keep_running loop to completion and
calls skip_with_error on its loop pass number errAt: the loop of spec
section 4.3 over the modelled KeepRunning, threading the worker State and
the shared Result; fuel bounds the loop passes. -/
def BodyLoopWithError (errAt : Nat) (msg : String) :
    Nat → Nat → State → ThreadManagerResult → Option (State × ThreadManagerResult)
| 0, _, _, _ => none
| fuel + 1, i, s, r =>
  match KeepRunning s with
  | (true, s1) =>
    let sr := if i = errAt then SkipWithError s1 r msg else (s1, r)
    BodyLoopWithError errAt msg fuel (i + 1) sr.1 sr.2
  | (false, s1) => some (s1, r)

/-- The worker State after an errored body has driven its loop to completion:
started and finished, error recorded, remaining count reset to 0. -/
def erroredFinalState (n : Nat) : State :=
  { total_iterations_ := 0
    batch_leftover_ := 0
    max_iterations := n
    started_ := true
    finished_ := true
    error_occurred_ := true
    timer_running := false }

/-- Per claim C3: the normalization the controller performs after a trial,
in the claim's words. -/
def spec_normalized (b : Instance) (raw : ThreadManagerResult) : ThreadManagerResult :=
  { raw with
    real_time_used := raw.real_time_used / (b.threads : ℚ)
    manual_time_used := raw.manual_time_used / (b.threads : ℚ) }

/-- Per claims C1 and C3: the time basis, in the claim's words — manual time
when use_manual_time is set, else real time when use_real_time is set, else
CPU time. -/
def spec_time_basis (b : Instance) (res : ThreadManagerResult) : ℚ :=
  if b.use_manual_time then res.manual_time_used
  else if b.use_real_time then res.real_time_used
  else res.cpu_time_used

/-- The should-report disjunction exactly as claim C1 words it, with
min_time falling back to the global minimum when instance.min_time is
exactly zero. -/
def spec_should_report_claimed (b : Instance) (flags : Flags)
    (repetition_num iters : Nat) (res : ThreadManagerResult) (seconds : ℚ) : Bool :=
  let min_time := if b.min_time ≠ 0 then b.min_time else flags.benchmark_min_time
  decide (0 < repetition_num)
    || decide (b.iterations ≠ 0)
    || res.has_error_
    || decide (kMaxIterations ≤ iters)
    || decide (min_time ≤ seconds)
    || (decide (5 * min_time ≤ res.real_time_used) && !b.use_manual_time)

/-- The should-report disjunction of claim C1 amended at its min_time
clause: the code falls back to the global minimum whenever IsZero holds,
i.e. whenever the magnitude of instance.min_time is below 2^-52. -/
def spec_should_report_amended (b : Instance) (flags : Flags)
    (repetition_num iters : Nat) (res : ThreadManagerResult) (seconds : ℚ) : Bool :=
  let min_time := if !IsZero b.min_time then b.min_time else flags.benchmark_min_time
  decide (0 < repetition_num)
    || decide (b.iterations ≠ 0)
    || res.has_error_
    || decide (kMaxIterations ≤ iters)
    || decide (min_time ≤ seconds)
    || (decide (5 * min_time ≤ res.real_time_used) && !b.use_manual_time)

/-- The next-iteration-count formula exactly as claim C2 words it:
round-to-nearest of max(multiplier * iters, iters + 1) clamped to the cap,
with the multiplier capped at 10 when seconds / min_time is at most 0.1 and
replaced by 2.0 whenever it is at most 1.0. -/
def spec_next_iters (min_time seconds : ℚ) (iters : Nat) : Nat :=
  let multiplier : ℚ := min_time * (14 / 10) / max seconds (1 / 1000000000)
  let multiplier := if seconds / min_time ≤ 1 / 10 then min 10 multiplier else multiplier
  let multiplier := if multiplier ≤ 1 then 2 else multiplier
  (round (min (max (multiplier * (iters : ℚ)) ((iters : ℚ) + 1)) (kMaxIterations : ℚ))).toNat

/-- Per claim C5: the first non-empty message among the skip calls of a
write sequence. -/
def firstNonEmptySkipMessage : List ResultOp → Option String
| [] => none
| .skipErr m :: rest => if m = "" then firstNonEmptySkipMessage rest else some m
| .setLabel _ :: rest => firstNonEmptySkipMessage rest

/-! Concrete fixtures used to evaluate the model on closed inputs. -/

/-- A trivial instantiation of the external pure collaborators. -/
def trivialCollaborators : Collaborators :=
  { Finish := fun c _ _ _ => c
    ComputeStats := fun _ => []
    ComputeBigO := fun rs => rs }

/-- The default flag values (DEFINE_ lines 63-88). -/
def defaultFlags : Flags := {}

/-- An Instance whose per-instance minimum time is positive but below 2^-52. -/
def tinyMinTimeInstance : Instance := { name := "tiny", min_time := 1 / 2 ^ 53 }

/-- A raw single-thread measurement of an eighth of a second. -/
def tinyMinTimeRaw : ThreadManagerResult :=
  { iterations := 1, cpu_time_used := 1 / 8, real_time_used := 1 / 8 }

/-- A raw measurement in which a worker signalled an error. -/
def erroredRaw : ThreadManagerResult :=
  { iterations := 7, error_message_ := "bad", has_error_ := true }

/-- A raw error-free measurement of one second of CPU time. -/
def reportingRaw : ThreadManagerResult := { iterations := 5, cpu_time_used := 1 }

/-- A memory-probe output. -/
def memProbeOut : MemoryManagerResult := { num_allocs := 10, max_bytes_used := 999 }

/-- An unconfigured Instance. -/
def plainInstance : Instance := { name := "plain" }

/-- The closing Instance of a complexity family. -/
def familyEndInstance : Instance :=
  { name := "family", complexity := .oN, last_benchmark_instance := true }

/-- Flag values with a global repetition count of zero and aggregates-only
reporting requested. -/
def zeroRepFlags : Flags :=
  { benchmark_repetitions := 0, benchmark_report_aggregates_only := true }

/-- An oracle measuring nothing. -/
def zeroOracle : Nat → ThreadManagerResult := fun _ => {}

/-- A memory oracle measuring nothing. -/
def zeroMemOracle : Nat → MemoryManagerResult := fun _ => {}

/-- An Instance configured for two repetitions. -/
def twoRepErrInstance : Instance := { name := "err", repetitions := 2 }

/-- An oracle whose every trial carries the error of erroredRaw. -/
def errOracle : Nat → ThreadManagerResult := fun _ => erroredRaw

/-- The Run record of a reported errored trial of twoRepErrInstance. -/
def errRun : Run :=
  { benchmark_name := "err", error_occurred := true, error_message := "bad", iterations := 7 }

/-! Shared lemmas. -/

/-- The error flag of a Run record always copies the shared Result's sticky
error bit (benchmark.cc line 136). -/
theorem CreateRunReport_error_occurred (C : Collaborators) (b : Instance)
    (res : ThreadManagerResult) (mi : Nat) (mr : MemoryManagerResult) (s : ℚ) :
    (CreateRunReport C b res mi mr s).error_occurred = res.has_error_ := by
  cases hE : res.has_error_ <;> simp [CreateRunReport, hE] <;> split <;> rfl

/-- The error message of a Run record always copies the shared Result's
message slot (benchmark.cc line 137). -/
theorem CreateRunReport_error_message (C : Collaborators) (b : Instance)
    (res : ThreadManagerResult) (mi : Nat) (mr : MemoryManagerResult) (s : ℚ) :
    (CreateRunReport C b res mi mr s).error_message = res.error_message_ := by
  cases hE : res.has_error_ <;> simp [CreateRunReport, hE] <;> split <;> rfl

/-- Claim C3: after every trial the controller divides the copied Result's
real_time_used and manual_time_used by instance.threads, leaves
cpu_time_used un-divided, and selects the time basis as manual_time_used
when use_manual_time is set, else real_time_used when use_real_time is set,
else cpu_time_used; RunBenchmarkTrial computes with exactly this pipeline. -/
theorem trial_normalization_and_basis (C : Collaborators) (b : Instance) (flags : Flags)
    (reg : Bool) (mr : MemoryManagerResult) (repetition_num iters : Nat)
    (raw res : ThreadManagerResult) :
    adjust_results b raw = spec_normalized b raw
    ∧ (adjust_results b raw).real_time_used = raw.real_time_used / (b.threads : ℚ)
    ∧ (adjust_results b raw).manual_time_used = raw.manual_time_used / (b.threads : ℚ)
    ∧ (adjust_results b raw).cpu_time_used = raw.cpu_time_used
    ∧ trial_seconds b res = spec_time_basis b res
    ∧ RunBenchmarkTrial C b flags reg mr repetition_num iters raw =
        (let results := spec_normalized b raw
         let seconds := spec_time_basis b results
         let min_time := resolved_min_time b flags
         if should_report repetition_num (decide (b.iterations ≠ 0)) results iters seconds
             min_time b.use_manual_time then
           TrialOutcome.reportTrial
             (CreateRunReport C b results (if reg then min 16 iters else 0) mr seconds)
             reg (if reg then min 16 iters else 0)
         else
           TrialOutcome.retry (next_iters_of min_time seconds iters)) := by
  refine ⟨rfl, rfl, rfl, rfl, rfl, rfl⟩

/-- Claim C8: the display reporter receives non_aggregates unless
display_report_aggregates_only is set, then aggregates_only whenever it is
non-empty; the file reporter, when present, is driven by the same rule using
file_report_aggregates_only, and receives nothing when absent. -/
theorem reporter_dispatch_rule (rr : RunResults) (file_reporter_present : Bool) :
    (RunBenchmarks_dispatch rr file_reporter_present).1 =
      (if rr.display_report_aggregates_only = true then [] else [rr.non_aggregates]) ++
      (if rr.aggregates_only.isEmpty = true then [] else [rr.aggregates_only])
    ∧ (RunBenchmarks_dispatch rr file_reporter_present).2 =
      (if file_reporter_present = true then
        (if rr.file_report_aggregates_only = true then [] else [rr.non_aggregates]) ++
        (if rr.aggregates_only.isEmpty = true then [] else [rr.aggregates_only])
       else []) := by
  cases hd : rr.display_report_aggregates_only <;>
    cases hf : rr.file_report_aggregates_only <;>
    cases hp : file_reporter_present <;>
    cases ha : rr.aggregates_only.isEmpty <;>
    simp_all [RunBenchmarks_dispatch, report_emissions]

/-- Claim C10: a Run record built from an errored Result carries only the
benchmark name, error flag, error message, report label, total iterations
and time unit, with every other field left at its zero/default value even
when the workers accumulated nonzero times, bytes, items or counters; in the
no-error case bytes_per_second and items_per_second are processed / seconds
exactly when the processed count and seconds are both strictly positive, and
0 otherwise. -/
theorem run_report_field_frame (C : Collaborators) (b : Instance)
    (results : ThreadManagerResult) (mi : Nat) (mr : MemoryManagerResult) (s : ℚ) :
    (CreateRunReport C b results mi mr s).benchmark_name = b.name
    ∧ (CreateRunReport C b results mi mr s).error_occurred = results.has_error_
    ∧ (CreateRunReport C b results mi mr s).error_message = results.error_message_
    ∧ (CreateRunReport C b results mi mr s).report_label = results.report_label_
    ∧ (CreateRunReport C b results mi mr s).iterations = results.iterations
    ∧ (CreateRunReport C b results mi mr s).time_unit = b.time_unit
    ∧ (CreateRunReport C b results mi mr s).real_accumulated_time =
        (if results.has_error_ = true then 0
         else if b.use_manual_time = true then results.manual_time_used
         else results.real_time_used)
    ∧ (CreateRunReport C b results mi mr s).cpu_accumulated_time =
        (if results.has_error_ = true then 0 else results.cpu_time_used)
    ∧ (CreateRunReport C b results mi mr s).bytes_per_second =
        (if results.has_error_ = true then 0
         else if 0 < results.bytes_processed ∧ 0 < s then (results.bytes_processed : ℚ) / s
         else 0)
    ∧ (CreateRunReport C b results mi mr s).items_per_second =
        (if results.has_error_ = true then 0
         else if 0 < results.items_processed ∧ 0 < s then (results.items_processed : ℚ) / s
         else 0)
    ∧ (CreateRunReport C b results mi mr s).complexity =
        (if results.has_error_ = true then BigO.oNone else b.complexity)
    ∧ (CreateRunReport C b results mi mr s).complexity_n =
        (if results.has_error_ = true then 0 else results.complexity_n)
    ∧ (CreateRunReport C b results mi mr s).complexity_lambda =
        (if results.has_error_ = true then (fun _ => 0) else b.complexity_lambda)
    ∧ (CreateRunReport C b results mi mr s).statistics =
        (if results.has_error_ = true then [] else b.statistics)
    ∧ (CreateRunReport C b results mi mr s).counters =
        (if results.has_error_ = true then []
         else C.Finish results.counters results.iterations s b.threads)
    ∧ (CreateRunReport C b results mi mr s).has_memory_result =
        (if results.has_error_ = true then false else decide (0 < mi))
    ∧ (CreateRunReport C b results mi mr s).allocs_per_iter =
        (if results.has_error_ = true ∨ mi = 0 then 0 else (mr.num_allocs : ℚ) / (mi : ℚ))
    ∧ (CreateRunReport C b results mi mr s).max_bytes_used =
        (if results.has_error_ = true ∨ mi = 0 then 0 else mr.max_bytes_used) := by
  rcases Nat.eq_zero_or_pos mi with hm | hm
  · cases hE : results.has_error_ <;> simp [CreateRunReport, hE, hm]
  · have hm2 : mi ≠ 0 := Nat.pos_iff_ne_zero.mp hm
    cases hE : results.has_error_ <;> simp [CreateRunReport, hE, hm, hm2]

/-- The should_report computation inside the trial equals the amended claim
disjunction over the spec-side normalized result and time basis. -/
theorem should_report_eq_amended (b : Instance) (flags : Flags)
    (repetition_num iters : Nat) (raw : ThreadManagerResult) :
    should_report repetition_num (decide (b.iterations ≠ 0)) (adjust_results b raw) iters
        (trial_seconds b (adjust_results b raw)) (resolved_min_time b flags) b.use_manual_time =
      spec_should_report_amended b flags repetition_num iters (spec_normalized b raw)
        (spec_time_basis b (spec_normalized b raw)) := rfl

/-- Claim C1, amended at its min_time clause: a trial is reported (the retry
loop exits with a Run record, no further retry) exactly when the claim's
disjunction holds, where min_time is instance.min_time when its magnitude is
at least 2^-52 (the code's IsZero test) and the global minimum otherwise. -/
theorem trial_reported_iff (C : Collaborators) (b : Instance) (flags : Flags)
    (reg : Bool) (mr : MemoryManagerResult) (repetition_num iters : Nat)
    (raw : ThreadManagerResult) :
    (RunBenchmarkTrial C b flags reg mr repetition_num iters raw).isReport =
      spec_should_report_amended b flags repetition_num iters (spec_normalized b raw)
        (spec_time_basis b (spec_normalized b raw)) := by
  rw [← should_report_eq_amended]
  simp only [RunBenchmarkTrial]
  split
  case isTrue h => simp only [TrialOutcome.isReport]; exact h.symm
  case isFalse h => simp only [TrialOutcome.isReport]; exact (Bool.eq_false_iff.mpr h).symm

/-- Claim C1 as stated fails: with instance.min_time = 2^-53 (nonzero, but
below epsilon) the code falls back to the global 0.5 s minimum and retries,
while the claim's disjunction (seconds of 1/8 at least the nonzero
instance.min_time) says the trial is reported. -/
theorem trial_min_time_epsilon_cex :
    (RunBenchmarkTrial trivialCollaborators tinyMinTimeInstance defaultFlags false {} 0 1
        tinyMinTimeRaw).isReport = false
    ∧ spec_should_report_claimed tinyMinTimeInstance defaultFlags 0 1
        (spec_normalized tinyMinTimeInstance tinyMinTimeRaw)
        (spec_time_basis tinyMinTimeInstance (spec_normalized tinyMinTimeInstance tinyMinTimeRaw))
      = true := by
  constructor
  · norm_num [RunBenchmarkTrial, adjust_results, trial_seconds, resolved_min_time, IsZero,
      should_report, kMaxIterations, tinyMinTimeInstance, tinyMinTimeRaw, defaultFlags,
      TrialOutcome.isReport, abs_of_pos]
  · norm_num [spec_should_report_claimed, spec_normalized, spec_time_basis, tinyMinTimeInstance,
      tinyMinTimeRaw, defaultFlags, kMaxIterations]

/-- The retry-branch iteration-count computation equals the claim's formula. -/
theorem next_iters_eq_spec (mt s : ℚ) (iters : Nat) :
    next_iters_of mt s iters = spec_next_iters mt s iters := by
  simp only [next_iters_of, spec_next_iters, round_eq]
  by_cases hsig : (1 : ℚ) / 10 < s / mt
  · rw [if_pos hsig, if_neg (not_le.mpr hsig)]
    generalize (if mt * (14 / 10) / max s (1 / 1000000000) ≤ 1 then (2 : ℚ)
        else mt * (14 / 10) / max s (1 / 1000000000)) = M
    generalize max (M * (iters : ℚ)) ((iters : ℚ) + 1) = N
    rcases le_or_lt N ((kMaxIterations : ℚ)) with hle | hgt
    · rw [if_neg (not_lt.mpr hle), min_eq_left hle]
    · rw [if_pos hgt, min_eq_right hgt.le]
  · rw [if_neg hsig, if_pos (not_lt.mp hsig)]
    generalize (if min 10 (mt * (14 / 10) / max s (1 / 1000000000)) ≤ 1 then (2 : ℚ)
        else min 10 (mt * (14 / 10) / max s (1 / 1000000000))) = M
    generalize max (M * (iters : ℚ)) ((iters : ℚ) + 1) = N
    rcases le_or_lt N ((kMaxIterations : ℚ)) with hle | hgt
    · rw [if_neg (not_lt.mpr hle), min_eq_left hle]
    · rw [if_pos hgt, min_eq_right hgt.le]

/-- Bounds of the clamp-and-round step: for any multiplier, the rounded next
count is between iters + 1 and the cap, provided iters is below the cap. -/
theorem floor_clamp_bounds (M : ℚ) (iters : Nat) (hlt : iters < kMaxIterations) :
    iters + 1 ≤ (⌊(if (kMaxIterations : ℚ) < max (M * (iters : ℚ)) ((iters : ℚ) + 1)
          then (kMaxIterations : ℚ) else max (M * (iters : ℚ)) ((iters : ℚ) + 1)) + 1 / 2⌋).toNat
    ∧ (⌊(if (kMaxIterations : ℚ) < max (M * (iters : ℚ)) ((iters : ℚ) + 1)
          then (kMaxIterations : ℚ) else max (M * (iters : ℚ)) ((iters : ℚ) + 1)) + 1 / 2⌋).toNat
        ≤ kMaxIterations := by
  have hcap : ((iters : ℚ) + 1) ≤ (kMaxIterations : ℚ) := by
    have : (iters + 1 : Nat) ≤ kMaxIterations := hlt
    exact_mod_cast this
  have hN1 : ((iters : ℚ) + 1) ≤ max (M * (iters : ℚ)) ((iters : ℚ) + 1) := le_max_right _ _
  rcases le_or_lt (max (M * (iters : ℚ)) ((iters : ℚ) + 1)) ((kMaxIterations : ℚ)) with hle | hgt
  · rw [if_neg (not_lt.mpr hle)]
    have hlo : ((iters : ℤ) + 1) ≤ ⌊max (M * (iters : ℚ)) ((iters : ℚ) + 1) + 1 / 2⌋ := by
      apply Int.le_floor.mpr
      push_cast
      linarith
    have hhi : ⌊max (M * (iters : ℚ)) ((iters : ℚ) + 1) + 1 / 2⌋ < ((kMaxIterations : ℤ) + 1) := by
      apply Int.floor_lt.mpr
      push_cast
      linarith
    omega
  · rw [if_pos hgt]
    have hlo : ((iters : ℤ) + 1) ≤ ⌊(kMaxIterations : ℚ) + 1 / 2⌋ := by
      apply Int.le_floor.mpr
      push_cast
      linarith
    have hhi : ⌊(kMaxIterations : ℚ) + 1 / 2⌋ < ((kMaxIterations : ℤ) + 1) := by
      apply Int.floor_lt.mpr
      push_cast
      linarith
    omega

/-- Claim C2: whenever a trial is not reported, the next iteration count is
the round-to-nearest of max(multiplier * iters, iters + 1) clamped to the
cap (with the multiplier capped at 10 on an insignificant trial and replaced
by 2.0 when at most 1.0), and consequently each successive trial uses at
least previous iters + 1 iterations and at most the 1e9 cap. -/
theorem retry_next_iters (C : Collaborators) (b : Instance) (flags : Flags)
    (reg : Bool) (mr : MemoryManagerResult) (repetition_num iters : Nat)
    (raw : ThreadManagerResult) (n : Nat)
    (h : RunBenchmarkTrial C b flags reg mr repetition_num iters raw = .retry n) :
    n = spec_next_iters (resolved_min_time b flags)
          (spec_time_basis b (spec_normalized b raw)) iters
    ∧ iters + 1 ≤ n ∧ n ≤ kMaxIterations := by
  simp only [RunBenchmarkTrial] at h
  split at h
  case isTrue hc => exact absurd h (by simp)
  case isFalse hc =>
    have hn : next_iters_of (resolved_min_time b flags)
        (trial_seconds b (adjust_results b raw)) iters = n := by
      injection h
    have hiters : iters < kMaxIterations := by
      have hf : should_report repetition_num (decide (b.iterations ≠ 0)) (adjust_results b raw)
          iters (trial_seconds b (adjust_results b raw)) (resolved_min_time b flags)
          b.use_manual_time = false := Bool.eq_false_iff.mpr (fun hcc => hc hcc)
      by_contra hge
      rw [show should_report repetition_num (decide (b.iterations ≠ 0)) (adjust_results b raw)
          iters (trial_seconds b (adjust_results b raw)) (resolved_min_time b flags)
          b.use_manual_time = true from ?_] at hf
      · exact absurd hf (by simp)
      · simp only [should_report]
        have : decide (kMaxIterations ≤ iters) = true := decide_eq_true (not_lt.mp hge)
        rw [this]
        simp
    refine ⟨?_, ?_, ?_⟩
    · rw [← hn]
      exact next_iters_eq_spec _ _ _
    · rw [← hn]
      exact (floor_clamp_bounds _ iters hiters).1
    · rw [← hn]
      exact (floor_clamp_bounds _ iters hiters).2

/-- Witness: a concrete half-second-minimum trial measuring 1/8 s at one
iteration retries with 6 iterations, which matches the claim formula and the
bounds. -/
theorem retry_next_iters_witness :
    6 = spec_next_iters (resolved_min_time tinyMinTimeInstance defaultFlags)
          (spec_time_basis tinyMinTimeInstance (spec_normalized tinyMinTimeInstance tinyMinTimeRaw))
          1
    ∧ 1 + 1 ≤ 6 ∧ 6 ≤ kMaxIterations :=
  retry_next_iters trivialCollaborators tinyMinTimeInstance defaultFlags false {} 0 1
    tinyMinTimeRaw 6 (by
      have h6 : next_iters_of ((1 : ℚ) / 2) ((1 : ℚ) / 8) 1 = 6 := by
        have hfl : ⌊(28 : ℚ) / 5 + 1 / 2⌋ = 6 := by norm_num [Int.floor_eq_iff]
        norm_num [next_iters_of, kMaxIterations]
        norm_num [show ((1 : ℚ) / 2 * (14 / 10) / max (1 / 8) (1 / 1000000000)) = 28 / 5 by
          norm_num, hfl]
        rfl
      norm_num [RunBenchmarkTrial, adjust_results, trial_seconds, resolved_min_time, IsZero,
        should_report, kMaxIterations, tinyMinTimeInstance, tinyMinTimeRaw, defaultFlags,
        abs_of_pos, h6])

/-- The memory fields of a Run record: attached exactly when the trial had
no error and memory_iterations is positive (benchmark.cc lines 167-174 under
the no-error branch opened at line 143). -/
theorem CreateRunReport_memory_fields (C : Collaborators) (b : Instance)
    (res : ThreadManagerResult) (mi : Nat) (mr : MemoryManagerResult) (s : ℚ) :
    (CreateRunReport C b res mi mr s).has_memory_result = (!res.has_error_ && decide (0 < mi))
    ∧ (CreateRunReport C b res mi mr s).allocs_per_iter =
        (if res.has_error_ = false ∧ 0 < mi then (mr.num_allocs : ℚ) / (mi : ℚ) else 0)
    ∧ (CreateRunReport C b res mi mr s).max_bytes_used =
        (if res.has_error_ = false ∧ 0 < mi then mr.max_bytes_used else 0) := by
  rcases Nat.eq_zero_or_pos mi with hm | hm
  · cases hE : res.has_error_ <;> simp [CreateRunReport, hE, hm]
  · have hm2 : mi ≠ 0 := Nat.pos_iff_ne_zero.mp hm
    cases hE : res.has_error_ <;> simp [CreateRunReport, hE, hm, hm2]

/-- Claim C4 as stated fails: on a reporting trial that carried an error,
with a memory manager registered, the code still starts the probe and reruns
the body (memory_iterations = min(16, 7) = 7 rather than staying 0). -/
theorem memory_probe_on_error_cex :
    (RunBenchmarkTrial trivialCollaborators plainInstance defaultFlags true memProbeOut 0 7
        erroredRaw).probeRan = true
    ∧ (RunBenchmarkTrial trivialCollaborators plainInstance defaultFlags true memProbeOut 0 7
        erroredRaw).memIters = 7
    ∧ erroredRaw.has_error_ = true := by
  exact ⟨rfl, rfl, rfl⟩

/-- Claim C4 amended: on a reporting trial the probe runs and the body is
rerun with memory_iterations = min(16, iters) exactly when a memory manager
is registered, regardless of error; the memory summary is attached to the
Run record exactly when a manager is registered and no error occurred; with
no manager, memory_iterations stays 0 and no summary is attached. -/
theorem memory_probe_rule (C : Collaborators) (b : Instance) (flags : Flags)
    (reg : Bool) (mr : MemoryManagerResult) (repetition_num iters : Nat)
    (raw : ThreadManagerResult) (h1 : 1 ≤ iters)
    (h2 : (RunBenchmarkTrial C b flags reg mr repetition_num iters raw).isReport = true) :
    (RunBenchmarkTrial C b flags reg mr repetition_num iters raw).probeRan = reg
    ∧ (RunBenchmarkTrial C b flags reg mr repetition_num iters raw).memIters =
        (if reg = true then min 16 iters else 0)
    ∧ (RunBenchmarkTrial C b flags reg mr repetition_num iters raw).reportRun.has_memory_result =
        (reg && !raw.has_error_)
    ∧ (RunBenchmarkTrial C b flags reg mr repetition_num iters raw).reportRun.allocs_per_iter =
        (if reg = true ∧ raw.has_error_ = false then
          (mr.num_allocs : ℚ) / ((min 16 iters : Nat) : ℚ) else 0)
    ∧ (RunBenchmarkTrial C b flags reg mr repetition_num iters raw).reportRun.max_bytes_used =
        (if reg = true ∧ raw.has_error_ = false then mr.max_bytes_used else 0) := by
  have hmi : 0 < min 16 iters := lt_min_iff.mpr ⟨by norm_num, h1⟩
  simp only [RunBenchmarkTrial] at h2 ⊢
  split at h2
  case isFalse hc => exact absurd h2 (by simp [TrialOutcome.isReport])
  case isTrue hc =>
    rw [if_pos hc]
    have hmem := CreateRunReport_memory_fields C b (adjust_results b raw)
      (if reg = true then min 16 iters else 0) mr
      (trial_seconds b (adjust_results b raw))
    have hadj : (adjust_results b raw).has_error_ = raw.has_error_ := rfl
    cases hr : reg
    · simp only [TrialOutcome.probeRan, TrialOutcome.memIters, TrialOutcome.reportRun]
      rw [hadj] at hmem
      simp only [hr] at hmem ⊢
      refine ⟨by trivial, by simp, ?_, ?_, ?_⟩
      · rw [hmem.1]
        simp
      · rw [hmem.2.1]
        simp
      · rw [hmem.2.2]
        simp
    · simp only [TrialOutcome.probeRan, TrialOutcome.memIters, TrialOutcome.reportRun]
      rw [hadj] at hmem
      simp only [hr] at hmem ⊢
      cases hE : raw.has_error_
      · simp only [hE] at hmem ⊢
        refine ⟨by trivial, by simp, ?_, ?_, ?_⟩
        · rw [hmem.1]
          simp [hmi]
        · rw [hmem.2.1]
          simp [hmi]
        · rw [hmem.2.2]
          simp [hmi]
      · simp only [hE] at hmem ⊢
        refine ⟨by trivial, by simp, ?_, ?_, ?_⟩
        · rw [hmem.1]
          simp
        · rw [hmem.2.1]
          simp
        · rw [hmem.2.2]
          simp

/-- Witness: a reporting error-free trial at 5 iterations with a registered
manager runs the probe with min(16, 5) = 5 iterations and attaches the
summary of 10 allocations over 5 iterations. -/
theorem memory_probe_rule_witness :
    (RunBenchmarkTrial trivialCollaborators plainInstance defaultFlags true memProbeOut 1 5
        reportingRaw).probeRan = true
    ∧ (RunBenchmarkTrial trivialCollaborators plainInstance defaultFlags true memProbeOut 1 5
        reportingRaw).memIters = (if (true : Bool) = true then min 16 5 else 0)
    ∧ (RunBenchmarkTrial trivialCollaborators plainInstance defaultFlags true memProbeOut 1 5
        reportingRaw).reportRun.has_memory_result = (true && !reportingRaw.has_error_)
    ∧ (RunBenchmarkTrial trivialCollaborators plainInstance defaultFlags true memProbeOut 1 5
        reportingRaw).reportRun.allocs_per_iter =
        (if (true : Bool) = true ∧ reportingRaw.has_error_ = false then
          (memProbeOut.num_allocs : ℚ) / ((min 16 5 : Nat) : ℚ) else 0)
    ∧ (RunBenchmarkTrial trivialCollaborators plainInstance defaultFlags true memProbeOut 1 5
        reportingRaw).reportRun.max_bytes_used =
        (if (true : Bool) = true ∧ reportingRaw.has_error_ = false then
          memProbeOut.max_bytes_used else 0) :=
  memory_probe_rule trivialCollaborators plainInstance defaultFlags true memProbeOut 1 5
    reportingRaw (by norm_num) rfl

/-- Sticky error: once the shared Result carries an error, any further
serialized writes leave both the error bit and the message unchanged. -/
theorem applyResultOps_error_preserved (ops : List ResultOp) (r : ThreadManagerResult)
    (hE : r.has_error_ = true) :
    (applyResultOps r ops).has_error_ = true
    ∧ (applyResultOps r ops).error_message_ = r.error_message_ := by
  induction ops generalizing r with
  | nil => exact ⟨hE, rfl⟩
  | cons op rest ih =>
    cases op with
    | skipErr m =>
      have : applyResultOp r (ResultOp.skipErr m) = r := by
        simp [applyResultOp, resultSkipWithError, hE]
      simpa [applyResultOps, this] using ih r hE
    | setLabel l =>
      have h2 := ih (resultSetLabel r l) (by simpa [resultSetLabel] using hE)
      simpa [applyResultOps, applyResultOp, resultSetLabel] using h2

/-- First skip wins: starting from a clean Result, after a write sequence
whose first skip carries message m, the error bit is set and the stored
message is m. -/
theorem applyResultOps_first_skip (ops : List ResultOp) (r : ThreadManagerResult) (m : String)
    (h0 : r.has_error_ = false) (h1 : firstSkipMessage ops = some m) :
    (applyResultOps r ops).has_error_ = true
    ∧ (applyResultOps r ops).error_message_ = m := by
  induction ops generalizing r with
  | nil => simp [firstSkipMessage] at h1
  | cons op rest ih =>
    cases op with
    | skipErr mm =>
      have hm : mm = m := by simpa [firstSkipMessage] using h1
      subst hm
      have hstep : applyResultOp r (ResultOp.skipErr mm) =
          { r with error_message_ := mm, has_error_ := true } := by
        simp [applyResultOp, resultSkipWithError, h0]
      have h2 := applyResultOps_error_preserved rest
        ({ r with error_message_ := mm, has_error_ := true }) rfl
      constructor
      · simpa [applyResultOps, hstep] using h2.1
      · simpa [applyResultOps, hstep] using h2.2
    | setLabel l =>
      have h1r : firstSkipMessage rest = some m := by simpa [firstSkipMessage] using h1
      have h2 := ih (resultSetLabel r l) (by simpa [resultSetLabel] using h0)
      simpa [applyResultOps, applyResultOp] using h2 h1r

/-- Claim C5 as stated fails: when the first skip_with_error call carries an
empty message and a later one carries "bad", the stored message is the empty
first message, not the first non-empty one. -/
theorem error_message_first_nonempty_cex :
    firstNonEmptySkipMessage [ResultOp.skipErr "", ResultOp.skipErr "bad"] = some "bad"
    ∧ (applyResultOps {} [ResultOp.skipErr "", ResultOp.skipErr "bad"]).has_error_ = true
    ∧ (applyResultOps {} [ResultOp.skipErr "", ResultOp.skipErr "bad"]).error_message_ = ""
    ∧ ("" : String) ≠ "bad" := by
  refine ⟨rfl, rfl, rfl, by decide⟩

/-- Claim C5 amended: once any worker calls skip_with_error, the shared
Result's error bit is true at report time and stays true under any later
writes, error_message_ equals the message of the first skip call (first
message set wins, even an empty one), and the Run record built from that
Result carries error_occurred = true and that message. -/
theorem error_sticky_first_message (r : ThreadManagerResult) (ops more : List ResultOp)
    (m : String) (C : Collaborators) (b : Instance) (mi : Nat) (mr : MemoryManagerResult)
    (s : ℚ) (h0 : r.has_error_ = false) (h1 : firstSkipMessage ops = some m) :
    (applyResultOps r (ops ++ more)).has_error_ = true
    ∧ (applyResultOps r (ops ++ more)).error_message_ = m
    ∧ (CreateRunReport C b (applyResultOps r (ops ++ more)) mi mr s).error_occurred = true
    ∧ (CreateRunReport C b (applyResultOps r (ops ++ more)) mi mr s).error_message = m := by
  have base := applyResultOps_first_skip ops r m h0 h1
  have hsplit : applyResultOps r (ops ++ more) = applyResultOps (applyResultOps r ops) more := by
    simp [applyResultOps, List.foldl_append]
  have after := applyResultOps_error_preserved more (applyResultOps r ops) base.1
  refine ⟨?_, ?_, ?_, ?_⟩
  · rw [hsplit]
    exact after.1
  · rw [hsplit, after.2]
    exact base.2
  · rw [CreateRunReport_error_occurred, hsplit]
    exact after.1
  · rw [CreateRunReport_error_message, hsplit, after.2]
    exact base.2

/-- Witness: a skip with message "boom" followed by a label write leaves the
error bit set and the message "boom", also in the built Run record. -/
theorem error_sticky_first_message_witness :
    (applyResultOps {} ([ResultOp.skipErr "boom"] ++ [ResultOp.setLabel "lbl"])).has_error_ = true
    ∧ (applyResultOps {} ([ResultOp.skipErr "boom"] ++
        [ResultOp.setLabel "lbl"])).error_message_ = "boom"
    ∧ (CreateRunReport trivialCollaborators plainInstance
        (applyResultOps {} ([ResultOp.skipErr "boom"] ++ [ResultOp.setLabel "lbl"]))
        0 {} 0).error_occurred = true
    ∧ (CreateRunReport trivialCollaborators plainInstance
        (applyResultOps {} ([ResultOp.skipErr "boom"] ++ [ResultOp.setLabel "lbl"]))
        0 {} 0).error_message = "boom" :=
  error_sticky_first_message {} [ResultOp.skipErr "boom"] [ResultOp.setLabel "lbl"] "boom"
    trivialCollaborators plainInstance 0 {} 0 rfl rfl

/-- The first loop entry from a fresh State behaves like an entry from a
running State whose remaining count is the full max_iterations: the first
keep_running call performs start_keep_running. -/
theorem body_loop_fresh (n k fuel : Nat) (msg : String) (r : ThreadManagerResult)
    (h1 : n ≠ 0) :
    BodyLoopWithError k msg (fuel + 1) 0 (State.fresh n) r =
      BodyLoopWithError k msg (fuel + 1) 0 ⟨n, 0, n, true, false, false, true⟩ r := by
  simp [BodyLoopWithError, KeepRunning, StartKeepRunning, State.fresh, h1]

set_option maxRecDepth 4000 in
/-- Advancing the loop over the error-free entries: m successful keep_running
calls before the erroring pass each consume one remaining iteration. -/
theorem body_loop_advance (n k : Nat) (msg : String) :
    ∀ (m fuel i t : Nat) (r : ThreadManagerResult), i + m = k → m < t → t < sizeTMod →
    BodyLoopWithError k msg (fuel + m) i ⟨t, 0, n, true, false, false, true⟩ r =
      BodyLoopWithError k msg fuel k ⟨t - m, 0, n, true, false, false, true⟩ r := by
  intro m
  induction m with
  | zero =>
    intro fuel i t r hik hmt htM
    have : i = k := by omega
    subst this
    simp
  | succ m ih =>
    intro fuel i t r hik hmt htM
    have ht0 : t ≠ 0 := by omega
    have hik2 : i ≠ k := by omega
    have hmod : (t + (sizeTMod - 1)) % sizeTMod = t - 1 := by
      rw [show sizeTMod = 18446744073709551616 from rfl] at htM ⊢
      omega
    rw [show fuel + (m + 1) = (fuel + m) + 1 from rfl]
    have hstep : BodyLoopWithError k msg ((fuel + m) + 1) i ⟨t, 0, n, true, false, false, true⟩ r =
        BodyLoopWithError k msg (fuel + m) (i + 1)
          ⟨t - 1, 0, n, true, false, false, true⟩ r := by
      simp [BodyLoopWithError, KeepRunning, ht0, hik2, hmod]
    have hIH := ih fuel (i + 1) (t - 1) r (by omega) (by omega) (by omega)
    have hsub : t - 1 - m = t - (m + 1) := by omega
    rw [hsub] at hIH
    exact hstep.trans hIH

/-- The erroring entry and the entry after it: skip_with_error truncates the
remaining count to 0, and the next keep_running call exits through
finish_keep_running, which resets the wrapped count to 0. -/
theorem body_loop_finish (n k fuel t : Nat) (msg : String) (r : ThreadManagerResult)
    (h1 : t ≠ 0) :
    BodyLoopWithError k msg (fuel + 2) k ⟨t, 0, n, true, false, false, true⟩ r =
      some (erroredFinalState n, resultSkipWithError r msg) := by
  rw [show fuel + 2 = (fuel + 1) + 1 from rfl]
  have hstep : BodyLoopWithError k msg ((fuel + 1) + 1) k ⟨t, 0, n, true, false, false, true⟩ r =
      BodyLoopWithError k msg (fuel + 1) (k + 1)
        ⟨0, 0, n, true, false, true, false⟩ (resultSkipWithError r msg) := by
    simp [BodyLoopWithError, KeepRunning, SkipWithError, h1]
  rw [hstep]
  simp [BodyLoopWithError, KeepRunning, FinishKeepRunning, erroredFinalState]

/-- Claim C6: a body that calls skip_with_error on pass k and then drives its
keep_running loop until it returns false reaches the post-loop check with
iterations() equal to max_iterations: skip_with_error and finish_keep_running
both reset total_iterations_ to 0, so the check iterations() >= max_iterations
passes and the body-returned-early abort is not triggered. -/
theorem errored_body_loop (n k : Nat) (msg : String) (r0 : ThreadManagerResult)
    (h1 : 1 ≤ n) (h2 : n < sizeTMod) (h3 : k < n) :
    BodyLoopWithError k msg (n + 2) 0 (State.fresh n) r0 =
      some (erroredFinalState n, resultSkipWithError r0 msg)
    ∧ (erroredFinalState n).max_iterations ≤ State.iterations (erroredFinalState n)
    ∧ (resultSkipWithError r0 msg).has_error_ = true := by
  refine ⟨?_, ?_, ?_⟩
  · rw [show n + 2 = (n + 1) + 1 from rfl,
      body_loop_fresh n k (n + 1) msg r0 (by omega)]
    rw [show (n + 1) + 1 = ((n - k) + 2) + k from by omega]
    rw [body_loop_advance n k msg k ((n - k) + 2) 0 n r0 (by omega) h3 h2]
    exact body_loop_finish n k (n - k) (n - k) msg r0 (by omega)
  · rw [show sizeTMod = 18446744073709551616 from rfl] at h2
    simp only [State.iterations, erroredFinalState,
      show sizeTMod = 18446744073709551616 from rfl]
    norm_num
    omega
  · cases hE : r0.has_error_
    · simp [resultSkipWithError, hE]
    · simp [resultSkipWithError, hE]

/-- Witness: a five-iteration worker erroring on its third pass finishes the
loop with iterations() = 5 and the error recorded. -/
theorem errored_body_loop_witness :
    BodyLoopWithError 2 "oops" (5 + 2) 0 (State.fresh 5) {} =
      some (erroredFinalState 5, resultSkipWithError {} "oops")
    ∧ (erroredFinalState 5).max_iterations ≤ State.iterations (erroredFinalState 5)
    ∧ (resultSkipWithError {} "oops").has_error_ = true :=
  errored_body_loop 5 2 "oops" {} (by norm_num) (by norm_num [sizeTMod]) (by norm_num)

/-- Invariant of the repetition loop: each repetition appends exactly one
report to non_aggregates, and appends it to the family-wide
complexity_reports exactly when it is error-free and the instance has a
complexity descriptor. -/
theorem RepetitionLoop_spec (C : Collaborators) (b : Instance) (flags : Flags) (reg : Bool)
    (oracle : Nat → ThreadManagerResult) (memOracle : Nat → MemoryManagerResult)
    (remaining : Nat) :
    ∀ (repetition_num iters tIdx fuel : Nat) (acc cr na crOut : List Run),
    RepetitionLoop C b flags reg oracle memOracle remaining repetition_num iters tIdx fuel acc cr
      = some (na, crOut) →
    ∃ new : List Run, na = acc ++ new ∧ new.length = remaining
      ∧ crOut = cr ++ new.filter
          (fun rep => decide (rep.error_occurred = false ∧ b.complexity ≠ BigO.oNone)) := by
  induction remaining with
  | zero =>
    intro repetition_num iters tIdx fuel acc cr na crOut h
    simp only [RepetitionLoop, Option.some.injEq, Prod.mk.injEq] at h
    exact ⟨[], by simp [h.1.symm], rfl, by simp [h.2.symm]⟩
  | succ rem ih =>
    intro repetition_num iters tIdx fuel acc cr na crOut h
    simp only [RepetitionLoop] at h
    cases hR : RetryLoop C b flags reg oracle memOracle repetition_num fuel iters tIdx with
    | none => rw [hR] at h; exact absurd h (by simp)
    | some trip =>
      obtain ⟨report, iters2, tIdx2⟩ := trip
      rw [hR] at h
      simp only at h
      obtain ⟨new, hna, hlen, hcr⟩ := ih _ _ _ _ _ _ _ _ h
      refine ⟨report :: new, ?_, by simp [hlen], ?_⟩
      · rw [hna]
        simp
      · rw [hcr, List.filter_cons]
        by_cases hc : report.error_occurred = false ∧ b.complexity ≠ BigO.oNone
        · simp [hc]
        · simp [hc]

/-- The two aggregates-only booleans in the claim's shape: default false,
resolved exactly when repeats differs from 1, from the instance mode when
specified and from the global flags otherwise. -/
theorem resolved_aggregates_flags_eq (b : Instance) (flags : Flags) :
    resolved_aggregates_flags b flags =
      ((if resolved_repeats b flags = 1 then false
        else if b.aggregation_report_mode = AggregationReportMode.ARM_Unspecified then
          flags.benchmark_report_aggregates_only || flags.benchmark_display_aggregates_only
        else b.aggregation_report_mode.displayBit),
       (if resolved_repeats b flags = 1 then false
        else if b.aggregation_report_mode = AggregationReportMode.ARM_Unspecified then
          flags.benchmark_report_aggregates_only
        else b.aggregation_report_mode.fileBit)) := by
  unfold resolved_aggregates_flags
  by_cases h1 : resolved_repeats b flags = 1
  · simp [h1]
  · cases hm : b.aggregation_report_mode <;>
      simp [h1, hm, AggregationReportMode.displayBit, AggregationReportMode.fileBit]

/-- Claim C7 as stated fails: with instance repetitions 0 and the global
repetition flag 0, repeats is 0 (not greater than 1), yet the
aggregates-only booleans are still resolved from the flags, here to true. -/
theorem aggregates_flags_repeats_zero_cex :
    RunBenchmark trivialCollaborators plainInstance zeroRepFlags false zeroOracle zeroMemOracle
        1 []
      = some ({ non_aggregates := [], aggregates_only := [],
                display_report_aggregates_only := true,
                file_report_aggregates_only := true }, [])
    ∧ ¬(1 < resolved_repeats plainInstance zeroRepFlags) := by
  exact ⟨rfl, by decide⟩

/-- Claim C7 amended: the repetition driver runs the iteration controller
max(repeats, 0) times with repeats = (instance.repetitions != 0 ?
instance.repetitions : global_repetitions); whenever repeats differs from 1
(not only when it exceeds 1) it resolves the two aggregates-only booleans
from the instance mode, falling back to the global flags when the mode is
unspecified; when repeats equals 1 both booleans remain false. -/
theorem repeats_and_aggregates_flags (C : Collaborators) (b : Instance) (flags : Flags)
    (reg : Bool) (oracle : Nat → ThreadManagerResult)
    (memOracle : Nat → MemoryManagerResult) (fuel : Nat) (cr0 : List Run)
    (rr : RunResults) (crF : List Run)
    (h : RunBenchmark C b flags reg oracle memOracle fuel cr0 = some (rr, crF)) :
    rr.non_aggregates.length = (resolved_repeats b flags).toNat
    ∧ rr.display_report_aggregates_only =
        (if resolved_repeats b flags = 1 then false
         else if b.aggregation_report_mode = AggregationReportMode.ARM_Unspecified then
           flags.benchmark_report_aggregates_only || flags.benchmark_display_aggregates_only
         else b.aggregation_report_mode.displayBit)
    ∧ rr.file_report_aggregates_only =
        (if resolved_repeats b flags = 1 then false
         else if b.aggregation_report_mode = AggregationReportMode.ARM_Unspecified then
           flags.benchmark_report_aggregates_only
         else b.aggregation_report_mode.fileBit) := by
  simp only [RunBenchmark] at h
  cases hL : RepetitionLoop C b flags reg oracle memOracle (resolved_repeats b flags).toNat 0
      (if b.iterations ≠ 0 then b.iterations else 1) 0 fuel [] cr0 with
  | none => rw [hL] at h; exact absurd h (by simp)
  | some pair =>
    obtain ⟨na, cr⟩ := pair
    rw [hL] at h
    simp only at h
    obtain ⟨new, hna, hlen, hcr⟩ :=
      RepetitionLoop_spec C b flags reg oracle memOracle _ _ _ _ _ _ _ _ _ hL
    have hflags := resolved_aggregates_flags_eq b flags
    split at h <;>
      (rw [Option.some.injEq, Prod.mk.injEq] at h
       obtain ⟨hrr, hcrF⟩ := h) <;>
      (rw [← hrr]
       refine ⟨?_, ?_, ?_⟩
       · rw [hna]
         simpa using hlen
       · rw [show (resolved_aggregates_flags b flags).1 =
             (if resolved_repeats b flags = 1 then false
              else if b.aggregation_report_mode = AggregationReportMode.ARM_Unspecified then
                flags.benchmark_report_aggregates_only ||
                  flags.benchmark_display_aggregates_only
              else b.aggregation_report_mode.displayBit) from by rw [hflags]]
       · rw [show (resolved_aggregates_flags b flags).2 =
             (if resolved_repeats b flags = 1 then false
              else if b.aggregation_report_mode = AggregationReportMode.ARM_Unspecified then
                flags.benchmark_report_aggregates_only
              else b.aggregation_report_mode.fileBit) from by rw [hflags]])

/-- Witness: two repetitions of an erroring benchmark produce two reports,
and with repeats = 2 and an unspecified mode the booleans resolve from the
default (false) global flags. -/
theorem repeats_and_aggregates_flags_witness :
    ([errRun, errRun] : List Run).length = (resolved_repeats twoRepErrInstance defaultFlags).toNat
    ∧ (false : Bool) =
        (if resolved_repeats twoRepErrInstance defaultFlags = 1 then false
         else if twoRepErrInstance.aggregation_report_mode =
             AggregationReportMode.ARM_Unspecified then
           defaultFlags.benchmark_report_aggregates_only ||
             defaultFlags.benchmark_display_aggregates_only
         else twoRepErrInstance.aggregation_report_mode.displayBit)
    ∧ (false : Bool) =
        (if resolved_repeats twoRepErrInstance defaultFlags = 1 then false
         else if twoRepErrInstance.aggregation_report_mode =
             AggregationReportMode.ARM_Unspecified then
           defaultFlags.benchmark_report_aggregates_only
         else twoRepErrInstance.aggregation_report_mode.fileBit) :=
  repeats_and_aggregates_flags trivialCollaborators twoRepErrInstance defaultFlags false
    errOracle zeroMemOracle 2 []
    { non_aggregates := [errRun, errRun], aggregates_only := [],
      display_report_aggregates_only := false, file_report_aggregates_only := false } [] rfl

/-- Claim C9: with a complexity descriptor, every reported error-free
non-aggregate Run is appended to the family-wide complexity_reports vector
(error Runs are not); on the family's last instance, ComputeBigO of the
accumulated vector is appended to aggregates_only and the vector is cleared,
otherwise the accumulated vector is handed on. -/
theorem complexity_reports_accumulation (C : Collaborators) (b : Instance) (flags : Flags)
    (reg : Bool) (oracle : Nat → ThreadManagerResult)
    (memOracle : Nat → MemoryManagerResult) (fuel : Nat) (cr0 : List Run)
    (rr : RunResults) (crF : List Run)
    (hc : b.complexity ≠ BigO.oNone)
    (h : RunBenchmark C b flags reg oracle memOracle fuel cr0 = some (rr, crF)) :
    crF = (if b.last_benchmark_instance = true then []
           else cr0 ++ rr.non_aggregates.filter (fun rep => !rep.error_occurred))
    ∧ rr.aggregates_only = C.ComputeStats rr.non_aggregates ++
        (if b.last_benchmark_instance = true then
           C.ComputeBigO (cr0 ++ rr.non_aggregates.filter (fun rep => !rep.error_occurred))
         else []) := by
  simp only [RunBenchmark] at h
  cases hL : RepetitionLoop C b flags reg oracle memOracle (resolved_repeats b flags).toNat 0
      (if b.iterations ≠ 0 then b.iterations else 1) 0 fuel [] cr0 with
  | none => rw [hL] at h; exact absurd h (by simp)
  | some pair =>
    obtain ⟨na, cr⟩ := pair
    rw [hL] at h
    simp only at h
    obtain ⟨new, hna, hlen, hcr⟩ :=
      RepetitionLoop_spec C b flags reg oracle memOracle _ _ _ _ _ _ _ _ _ hL
    have hna2 : na = new := by simpa using hna
    have hfil : new.filter
        (fun rep => decide (rep.error_occurred = false ∧ b.complexity ≠ BigO.oNone))
        = new.filter (fun rep => !rep.error_occurred) := by
      apply List.filter_congr
      intro rep _
      cases hrep : rep.error_occurred <;> simp [hc, hrep]
    cases hlast : b.last_benchmark_instance
    · rw [if_neg (by simp [hlast])] at h
      rw [Option.some.injEq, Prod.mk.injEq] at h
      obtain ⟨hrr, hcrF⟩ := h
      rw [← hrr, ← hcrF]
      constructor
      · simp only [hlast, if_neg]
        rw [hcr, hfil, hna2]
        simp
      · simp [hlast]
    · rw [if_pos ⟨hc, hlast⟩] at h
      rw [Option.some.injEq, Prod.mk.injEq] at h
      obtain ⟨hrr, hcrF⟩ := h
      rw [← hrr, ← hcrF]
      constructor
      · simp [hlast]
      · simp only [hlast, if_pos]
        rw [hcr, hfil, hna2]

/-- Witness: the closing instance of a complexity family, run zero times
with one prior family report, clears the family vector and appends the
ComputeBigO output of the accumulated reports to aggregates_only. -/
theorem complexity_reports_accumulation_witness :
    ([] : List Run) =
      (if familyEndInstance.last_benchmark_instance = true then []
       else [errRun] ++ ([] : List Run).filter (fun rep => !rep.error_occurred))
    ∧ ([errRun] : List Run) =
        trivialCollaborators.ComputeStats ([] : List Run) ++
        (if familyEndInstance.last_benchmark_instance = true then
           trivialCollaborators.ComputeBigO
             ([errRun] ++ ([] : List Run).filter (fun rep => !rep.error_occurred))
         else []) :=
  complexity_reports_accumulation trivialCollaborators familyEndInstance zeroRepFlags false
    zeroOracle zeroMemOracle 1 [errRun]
    { non_aggregates := [], aggregates_only := [errRun],
      display_report_aggregates_only := true, file_report_aggregates_only := true } []
    (by decide) rfl

end Benchmark
